import Mathlib

/-!
# Verification of the Chatterbox-Turbo TTS server (`tts_server.py`)

A shallow embedding of the caching TTS HTTP server. Python strings are
modelled as Lean `String`s (sequences of Unicode code points); the Python
string methods used by the code (`str.lower`, `str.strip`, `str.isalnum`)
are embedded with their ASCII semantics, which is the character range the
application exercises. 32-bit machine arithmetic inside MD5 is `Nat` with
explicit reduction modulo `2 ^ 32`. Filesystem and HTTP effects are made
explicit: the server state carries the cache directory as a map from path
strings to file contents, and every handler returns its response, the new
state and a trace of the externally visible calls it made (model loads,
`generate` invocations, cache existence checks and cache writes).
-/

namespace TTSServer

/-! ## Python string primitives (ASCII semantics)

`pyToLower` embeds `str.lower`, `pyIsAlnum` embeds `str.isalnum`,
`pyIsSpace` the whitespace class of `str.strip`, over the ASCII range. -/

/-- Embedding of Python `str.lower` on one character: map `A`-`Z` (code
points 65-90) to `a`-`z`, leave every other character unchanged. -/
def pyToLower (c : Char) : Char :=
  if 65 ≤ c.toNat ∧ c.toNat ≤ 90 then Char.ofNat (c.toNat + 32) else c

/-- Embedding of Python `str.isalnum` on one character (ASCII range):
digits `0`-`9`, uppercase `A`-`Z`, lowercase `a`-`z`. -/
def pyIsAlnum (c : Char) : Bool :=
  (48 ≤ c.toNat && c.toNat ≤ 57) || (65 ≤ c.toNat && c.toNat ≤ 90) ||
    (97 ≤ c.toNat && c.toNat ≤ 122)

/-- Whitespace stripped by Python `str.strip`: space and `\t\n\v\f\r`. -/
def pyIsSpace (c : Char) : Bool :=
  c.toNat == 32 || (9 ≤ c.toNat && c.toNat ≤ 13)

/-- Embedding of Python `str.strip`: drop leading and trailing whitespace. -/
def pyStrip (cs : List Char) : List Char :=
  ((cs.dropWhile pyIsSpace).reverse.dropWhile pyIsSpace).reverse

/-- UTF-8 encoding of one code point, as Python `str.encode` produces it. -/
def utf8EncodeChar (c : Char) : List Nat :=
  let n := c.toNat
  if n < 128 then [n]
  else if n < 2048 then [192 + n / 64, 128 + n % 64]
  else if n < 65536 then [224 + n / 4096, 128 + (n / 64) % 64, 128 + n % 64]
  else [240 + n / 262144, 128 + (n / 4096) % 64, 128 + (n / 64) % 64, 128 + n % 64]

/-- UTF-8 encoding of a list of code points, the bytes `str.encode` yields. -/
def utf8Encode (cs : List Char) : List Nat :=
  (cs.map utf8EncodeChar).flatten

/-! ## MD5 (RFC 1321), over `Nat` bytes with explicit `% 2 ^ 32`

`hashlib.md5(...).hexdigest()` is embedded in full so that the hash
fallback of the cache key resolver is the real function, not a stub. -/

/-- The 32-bit modulus. -/
def M32 : Nat := 4294967296

/-- 32-bit addition: `Nat` addition reduced modulo `2 ^ 32`. -/
def add32 (a b : Nat) : Nat := (a + b) % M32

/-- 32-bit bitwise complement of a value below `2 ^ 32`. -/
def not32 (a : Nat) : Nat := 4294967295 - a % M32

/-- 32-bit left rotation of `x < 2 ^ 32` by `s ≤ 32` bits. -/
def rotl32 (x s : Nat) : Nat := ((x <<< s) + (x >>> (32 - s))) % M32

/-- The four MD5 chaining words. -/
structure MD5State where
  a : Nat
  b : Nat
  c : Nat
  d : Nat
deriving DecidableEq

/-- MD5 initial chaining value (RFC 1321 §3.3). -/
def md5Init : MD5State := ⟨1732584193, 4023233417, 2562383102, 271733878⟩

/-- MD5 round constants `K[0..63]` (RFC 1321 §3.4). -/
def md5K : List Nat :=
  [0xd76aa478, 0xe8c7b756, 0x242070db, 0xc1bdceee,
   0xf57c0faf, 0x4787c62a, 0xa8304613, 0xfd469501,
   0x698098d8, 0x8b44f7af, 0xffff5bb1, 0x895cd7be,
   0x6b901122, 0xfd987193, 0xa679438e, 0x49b40821,
   0xf61e2562, 0xc040b340, 0x265e5a51, 0xe9b6c7aa,
   0xd62f105d, 0x02441453, 0xd8a1e681, 0xe7d3fbc8,
   0x21e1cde6, 0xc33707d6, 0xf4d50d87, 0x455a14ed,
   0xa9e3e905, 0xfcefa3f8, 0x676f02d9, 0x8d2a4c8a,
   0xfffa3942, 0x8771f681, 0x6d9d6122, 0xfde5380c,
   0xa4beea44, 0x4bdecfa9, 0xf6bb4b60, 0xbebfbc70,
   0x289b7ec6, 0xeaa127fa, 0xd4ef3085, 0x04881d05,
   0xd9d4d039, 0xe6db99e5, 0x1fa27cf8, 0xc4ac5665,
   0xf4292244, 0x432aff97, 0xab9423a7, 0xfc93a039,
   0x655b59c3, 0x8f0ccc92, 0xffeff47d, 0x85845dd1,
   0x6fa87e4f, 0xfe2ce6e0, 0xa3014314, 0x4e0811a1,
   0xf7537e82, 0xbd3af235, 0x2ad7d2bb, 0xeb86d391]

/-- MD5 per-round left-rotation amounts `s[0..63]`. -/
def md5S : List Nat :=
  [7, 12, 17, 22, 7, 12, 17, 22, 7, 12, 17, 22, 7, 12, 17, 22,
   5, 9, 14, 20, 5, 9, 14, 20, 5, 9, 14, 20, 5, 9, 14, 20,
   4, 11, 16, 23, 4, 11, 16, 23, 4, 11, 16, 23, 4, 11, 16, 23,
   6, 10, 15, 21, 6, 10, 15, 21, 6, 10, 15, 21, 6, 10, 15, 21]

/-- The `i`-th little-endian 32-bit word of a 64-byte block. -/
def leWord (bs : List Nat) (i : Nat) : Nat :=
  bs.getD (4 * i) 0 + 256 * bs.getD (4 * i + 1) 0 +
    65536 * bs.getD (4 * i + 2) 0 + 16777216 * bs.getD (4 * i + 3) 0

/-- The MD5 nonlinear function for round `i` applied to `b`, `c`, `d`. -/
def md5F (i b c d : Nat) : Nat :=
  if i < 16 then Nat.lor (Nat.land b c) (Nat.land (not32 b) d)
  else if i < 32 then Nat.lor (Nat.land d b) (Nat.land (not32 d) c)
  else if i < 48 then Nat.xor (Nat.xor b c) d
  else Nat.xor c (Nat.lor b (not32 d))

/-- The message-word index used in round `i`. -/
def md5G (i : Nat) : Nat :=
  if i < 16 then i
  else if i < 32 then (5 * i + 1) % 16
  else if i < 48 then (3 * i + 5) % 16
  else (7 * i) % 16

/-- One of the 64 MD5 rounds on a 64-byte block. -/
def md5Round (block : List Nat) (st : MD5State) (i : Nat) : MD5State :=
  let f := (md5F i st.b st.c st.d + st.a + md5K.getD i 0 + leWord block (md5G i)) % M32
  ⟨st.d, add32 st.b (rotl32 f (md5S.getD i 0)), st.b, st.c⟩

/-- The MD5 compression function: 64 rounds, then add the input chaining
value back in. -/
def md5Compress (st : MD5State) (block : List Nat) : MD5State :=
  let r := (List.range 64).foldl (md5Round block) st
  ⟨add32 st.a r.a, add32 st.b r.b, add32 st.c r.c, add32 st.d r.d⟩

/-- The 8-byte little-endian encoding of `n % 2 ^ 64`. -/
def leBytes8 (n : Nat) : List Nat :=
  [n % 256, n / 256 % 256, n / 65536 % 256, n / 16777216 % 256,
   n / 4294967296 % 256, n / 1099511627776 % 256,
   n / 281474976710656 % 256, n / 72057594037927936 % 256]

/-- MD5 padding: append `0x80`, zero-fill to 56 mod 64, append the
original length in bits as a little-endian 64-bit value. -/
def md5Pad (msg : List Nat) : List Nat :=
  msg ++ [128] ++ List.replicate ((56 + 64 - (msg.length + 1) % 64) % 64) 0 ++
    leBytes8 (8 * msg.length)

/-- Fold the compression function over the 64-byte blocks of a padded
message. -/
def md5Blocks (st : MD5State) (msg : List Nat) : MD5State :=
  if h : msg = [] then st
  else md5Blocks (md5Compress st (msg.take 64)) (msg.drop 64)
termination_by msg.length
decreasing_by
  simp only [List.length_drop]
  have := List.length_pos.mpr h
  omega

/-- The 4-byte little-endian encoding of one chaining word. -/
def word2bytes (w : Nat) : List Nat :=
  [w % 256, w / 256 % 256, w / 65536 % 256, w / 16777216 % 256]

/-- The 16-byte MD5 digest of a byte string. -/
def md5Bytes (msg : List Nat) : List Nat :=
  let st := md5Blocks md5Init (md5Pad msg)
  word2bytes st.a ++ word2bytes st.b ++ word2bytes st.c ++ word2bytes st.d

/-- The sixteen lowercase hexadecimal digit characters. -/
def hexDigits : List Char := "0123456789abcdef".toList

/-- The lowercase hex character of a nibble. -/
def hexChar (n : Nat) : Char := hexDigits.getD (n % 16) '0'

/-- The two hex characters of one byte, high nibble first. -/
def byteHex (b : Nat) : List Char := [hexChar (b / 16), hexChar b]

/-- Embedding of `hashlib.md5(msg).hexdigest()`: the 32-character
lowercase hex rendering of the digest. -/
def md5HexDigest (msg : List Nat) : String :=
  ⟨(md5Bytes msg).foldr (fun b acc => byteHex b ++ acc) []⟩

/-! ## The cache key / path resolver (`get_audio_cache_path`)

The audio cache directory is resolved at import time from platform and
environment data (`APPDATA` or the home directory); that interaction with
the environment is outside the pure embedding, so the directory is a fixed
constant here. No claim depends on its value, only on the file name the
resolver appends to it. -/

/-- The resolved audio cache directory (`APP_DATA / 'audio_cache'`),
abstracted to a constant since its value comes from the environment. -/
def AUDIO_CACHE_DIR : String := "audio_cache"

/-- The resolved model cache directory (`APP_DATA / 'models'`), likewise a
constant; `/health` reports it as `cache_dir`. -/
def CACHE_DIR : String := "models"

/-- The normalized text `clean_text = text.lower().strip()`. -/
def cleanText (text : String) : List Char :=
  pyStrip (text.toList.map pyToLower)

/-- One step of the sanitizing join
`''.join(c if c.isalnum() or c == ' ' else '' for c in clean_text)`:
the contribution of a single character. -/
def keepChar (c : Char) : List Char :=
  if pyIsAlnum c || c == ' ' then [c] else []

/-- The sanitized name before the hash fallback:
`safe_name = join(...).replace(' ', '_')[:50]`. -/
def sanitizedName (text : String) : List Char :=
  ((((cleanText text).map keepChar).flatten).map
    (fun c => if c == ' ' then '_' else c)).take 50

/-- The final file stem: the sanitized name, or when it is shorter than
two characters, `hashlib.md5(clean_text.encode()).hexdigest()[:12]`. -/
def safeName (text : String) : List Char :=
  let s := sanitizedName text
  if s.length < 2 then (md5HexDigest (utf8Encode (cleanText text))).toList.take 12
  else s

/-- Embedding of `get_audio_cache_path`: the cache file path
`AUDIO_CACHE_DIR / f"{safe_name}.wav"` for the given text. -/
def get_audio_cache_path (text : String) : String :=
  AUDIO_CACHE_DIR ++ "/" ++ String.mk (safeName text) ++ ".wav"

/-- Reference resolver transcribed from the specification's own words:
"lowercase and strip; retain only alphanumeric characters and spaces;
convert spaces to underscores; truncate to 50 characters; if result
length < 2, substitute a 12-character hex digest of an unkeyed hash of
the original normalized text"; the result names a `.wav` file inside the
audio cache directory. Stated with `List.filter` where the code uses a
character-wise join, to be compared with `get_audio_cache_path`. -/
def specCachePath (text : String) : String :=
  let normalized := pyStrip (text.toList.map pyToLower)
  let kept := normalized.filter (fun c => pyIsAlnum c || c == ' ')
  let underscored := kept.map (fun c => if c == ' ' then '_' else c)
  let truncated := underscored.take 50
  let stem :=
    if truncated.length < 2 then
      (md5HexDigest (utf8Encode normalized)).toList.take 12
    else truncated
  AUDIO_CACHE_DIR ++ "/" ++ String.mk stem ++ ".wav"

/-! ## Tensors and the shape-normalization loop of `/speak`

A tensor is its shape together with an opaque handle for the underlying
buffer; `squeeze`/`unsqueeze` reshape without touching the buffer, which
is all the handler does to the waveform. The `while wav.dim() > 2` loop
can fail to terminate (squeezing dimension 0 is a no-op when its size is
not 1), so it is embedded with fuel and `Option`: `none` models the loop
running forever. `wav.shape.length` fuel is enough whenever the real loop
terminates, since every productive iteration removes one dimension. -/

/-- A tensor: its shape and an opaque identifier of the data buffer. -/
structure Tensor where
  shape : List Nat
  data : Nat
deriving DecidableEq

/-- Embedding of `wav.squeeze(0)`: drop the leading dimension when its
size is 1, otherwise return the tensor unchanged. -/
def squeeze0 (t : Tensor) : Tensor :=
  match t.shape with
  | 1 :: rest => ⟨rest, t.data⟩
  | _ => t

/-- Embedding of `wav.unsqueeze(0)`: prepend a dimension of size 1. -/
def unsqueeze0 (t : Tensor) : Tensor := ⟨1 :: t.shape, t.data⟩

/-- The fuelled `while wav.dim() > 2: wav = wav.squeeze(0)` loop; `none`
models divergence. -/
def squeezeLoop (fuel : Nat) (t : Tensor) : Option Tensor :=
  if t.shape.length ≤ 2 then some t
  else
    match fuel with
    | 0 => none
    | fuel + 1 => squeezeLoop fuel (squeeze0 t)

/-- The full shape normalization of the handler: the squeeze loop, then
`unsqueeze(0)` when one dimension remains. -/
def normalizeWav (t : Tensor) : Option Tensor :=
  match squeezeLoop t.shape.length t with
  | none => none
  | some t2 => some (if t2.shape.length == 1 then unsqueeze0 t2 else t2)

/-! ## Server state, requests and handlers

The Flask handlers are embedded as pure functions from an environment
(the outcomes of the external calls: model load, `generate`, device
detection), the server state (the cache directory contents and the
`model`/`device` globals) and the request data, to a response, the next
state and a trace of the externally visible calls made. -/

/-- A file in the audio cache directory: either bytes that were already
on disk, or a waveform written by `torchaudio.save` at a sample rate. -/
inductive FileData where
  | rawBytes (bytes : List Nat)
  | wavData (wav : Tensor) (sampleRate : Nat)
deriving DecidableEq

/-- A JSON value as the handlers produce them via `jsonify`. -/
inductive JsonVal where
  | str (s : String)
  | bool (b : Bool)
  | null
deriving DecidableEq

/-- An HTTP response: a file sent with `send_file` and a mimetype, or a
`jsonify` object with a status code. -/
inductive Response where
  | fileResp (content : FileData) (mimetype : String)
  | jsonResp (status : Nat) (body : List (String × JsonVal))
deriving DecidableEq

/-- The status code of a response (`jsonify` alone means 200). -/
def respStatus : Response → Nat
  | .fileResp _ _ => 200
  | .jsonResp s _ => s

/-- Look up a field of a JSON response body. -/
def jsonField (r : Response) (k : String) : Option JsonVal :=
  match r with
  | .fileResp _ _ => none
  | .jsonResp _ body => (body.find? (fun p => p.1 == k)).map Prod.snd

/-- The mutable server state: the audio cache directory as a map from
path strings to file contents, and the `model`/`device` globals
(`model` kept only as the bit `model is not None`). -/
structure ServerState where
  fs : String → Option FileData
  modelLoaded : Bool
  device : Option String

/-- The trace of externally visible calls one handler makes: how many
times `load_model` ran, which texts went to `tts.generate`, which cache
paths had their existence checked, and which were written. -/
structure Trace where
  loadCalls : Nat
  genCalls : List String
  cacheChecks : List String
  cacheWrites : List String
deriving DecidableEq

/-- The empty trace. -/
def emptyTrace : Trace := ⟨0, [], [], []⟩

/-- Outcomes of the external calls a request may make: the result of an
actual model load attempt, of `tts.generate` per text, and of
`get_device()`. -/
structure Env where
  loadOutcome : Except String Unit
  generate : String → Except String Tensor
  getDevice : String

/-- What one handler invocation produces: the response, the state the
globals and cache are left in, and the trace of external calls. -/
structure HandlerResult where
  resp : Response
  state : ServerState
  trace : Trace

/-- The cache-miss tail of `/speak` after `load_model` succeeded: call
`tts.generate(text)`, normalize the shape, `torchaudio.save` to the
cache path at 24000 Hz, and return the cached file; `none` models the
shape loop diverging; a `generate` exception becomes a 500. -/
def speakGenerate (env : Env) (st : ServerState) (text cache_path : String)
    (tr : Trace) : Option HandlerResult :=
  let tr1 : Trace := { tr with genCalls := tr.genCalls ++ [text] }
  match env.generate text with
  | .error e => some ⟨.jsonResp 500 [("error", .str e)], st, tr1⟩
  | .ok wav =>
    match normalizeWav wav with
    | none => none
    | some wav2 =>
      let f := FileData.wavData wav2 24000
      let st2 : ServerState :=
        { st with fs := fun p => if p = cache_path then some f else st.fs p }
      some ⟨.fileResp f "audio/wav", st2,
        { tr1 with cacheWrites := tr1.cacheWrites ++ [cache_path] }⟩

/-- Embedding of the `/speak` handler on the extracted `text` field
(Python's `data.get('text', '')` maps an absent field to `""`). -/
def speak (env : Env) (st : ServerState) (text : String) : Option HandlerResult :=
  if text = "" then
    some ⟨.jsonResp 400 [("error", .str "No text provided")], st, emptyTrace⟩
  else
    let cache_path := get_audio_cache_path text
    match st.fs cache_path with
    | some f =>
      some ⟨.fileResp f "audio/wav", st, { emptyTrace with cacheChecks := [cache_path] }⟩
    | none =>
      let tr : Trace := { emptyTrace with loadCalls := 1, cacheChecks := [cache_path] }
      if st.modelLoaded then
        speakGenerate env st text cache_path tr
      else
        match env.loadOutcome with
        | .error e =>
          some ⟨.jsonResp 500 [("error", .str e)],
            { st with device := some env.getDevice }, tr⟩
        | .ok _ =>
          speakGenerate env
            { st with modelLoaded := true, device := some env.getDevice }
            text cache_path tr

/-- Embedding of `/speak` on the raw optional `text` field of the JSON
body; `data.get('text', '')` turns an absent field into the empty
string. -/
def speakRequest (env : Env) (st : ServerState) (textField : Option String) :
    Option HandlerResult :=
  speak env st (textField.getD "")

/-- Embedding of the `/health` handler. -/
def health (env : Env) (st : ServerState) : HandlerResult :=
  ⟨.jsonResp 200 [("status", .str "ok"), ("model_loaded", .bool st.modelLoaded),
      ("device", .str (st.device.getD env.getDevice)), ("cache_dir", .str CACHE_DIR)],
    st, emptyTrace⟩

/-- The JSON rendering of the `device` global (`None` becomes null). -/
def jsonOfDevice : Option String → JsonVal
  | none => .null
  | some d => .str d

/-- Embedding of the `/preload` handler: run `load_model`, report the
device, or turn a load exception into a 500. -/
def preload (env : Env) (st : ServerState) : HandlerResult :=
  let tr : Trace := { emptyTrace with loadCalls := 1 }
  if st.modelLoaded then
    ⟨.jsonResp 200 [("status", .str "ok"), ("device", jsonOfDevice st.device)], st, tr⟩
  else
    match env.loadOutcome with
    | .error e =>
      ⟨.jsonResp 500 [("error", .str e)], { st with device := some env.getDevice }, tr⟩
    | .ok _ =>
      ⟨.jsonResp 200 [("status", .str "ok"), ("device", .str env.getDevice)],
        { st with modelLoaded := true, device := some env.getDevice }, tr⟩

/-- What a `/shutdown` request leads to: `os._exit(0)` with no HTTP
response, or (when the werkzeug shutdown hook is present in the request
environment) the hook plus a response before the server stops. -/
inductive ShutdownOutcome where
  | immediateExit
  | respondThenStop (resp : Response)
deriving DecidableEq

/-- Embedding of the `/shutdown` handler, parametrized by whether
`request.environ` carries the `werkzeug.server.shutdown` hook. -/
def shutdown (werkzeugHook : Bool) : ShutdownOutcome :=
  if werkzeugHook then
    .respondThenStop (.jsonResp 200 [("status", .str "shutting down")])
  else .immediateExit

/-- The HTTP response a shutdown outcome delivers to the client, if any. -/
def sendsResponse : ShutdownOutcome → Option Response
  | .immediateExit => none
  | .respondThenStop r => some r

/-- The server state at process start: whatever the cache directory
holds on disk, no model, no device. -/
def initialState (fs0 : String → Option FileData) : ServerState :=
  ⟨fs0, false, none⟩

/-! ## Concrete fixtures used by witnesses -/

/-- A concrete environment: loads succeed, `generate` yields a fixed
1-second mono waveform. -/
def env0 : Env := ⟨.ok (), fun _ => .ok ⟨[1, 24000], 0⟩, "cpu"⟩

/-- Concrete cached file bytes (a RIFF header prefix). -/
def f0 : FileData := .rawBytes [82, 73, 70, 70]

/-- A server state whose cache holds `f0` at the resolved path for
`"hello"`, with no model loaded. -/
def st0 : ServerState :=
  ⟨fun p => if p = get_audio_cache_path "hello" then some f0 else none, false, none⟩

/-- A server state with an empty cache and no model loaded. -/
def stEmpty : ServerState := ⟨fun _ => none, false, none⟩

/-- A server state with an empty cache and the model already loaded. -/
def stLoaded : ServerState := ⟨fun _ => none, true, some "cpu"⟩

/-! ## Helper lemmas -/

/-- The character-wise sanitizing join of the code equals a plain filter:
gluing the singleton-or-empty contributions of each character keeps
exactly the characters satisfying the predicate. -/
theorem flatten_keepChar (l : List Char) :
    (l.map keepChar).flatten = l.filter (fun c => pyIsAlnum c || c == ' ') := by
  induction l with
  | nil => rfl
  | cons c cs ih =>
    by_cases h : (pyIsAlnum c || c == ' ') = true <;>
      simp [keepChar, h, ih, List.filter_cons]

/-- Code points in the lowercase ASCII letter range round-trip through
`Char.ofNat`, which is the only range the lowering map constructs. -/
theorem ofNat_lower_toNat {n : Nat} (h1 : 97 ≤ n) (h2 : n ≤ 122) :
    (Char.ofNat n).toNat = n := by
  have key : ∀ m, m < 26 → (Char.ofNat (97 + m)).toNat = 97 + m := by decide
  have h3 : n = 97 + (n - 97) := by omega
  rw [h3]
  exact key (n - 97) (by omega)

/-- A character that is alphanumeric after lowering is a lowercase
letter or a digit: lowering leaves no uppercase letter behind. -/
theorem pyToLower_alnum_ranges (c : Char) (h : pyIsAlnum (pyToLower c) = true) :
    (97 ≤ (pyToLower c).toNat ∧ (pyToLower c).toNat ≤ 122) ∨
    (48 ≤ (pyToLower c).toNat ∧ (pyToLower c).toNat ≤ 57) := by
  unfold pyToLower at h ⊢
  by_cases hc : 65 ≤ c.toNat ∧ c.toNat ≤ 90
  · rw [if_pos hc] at h ⊢
    have hv := @ofNat_lower_toNat (c.toNat + 32) (by omega) (by omega)
    left
    omega
  · rw [if_neg hc] at h ⊢
    simp only [pyIsAlnum, Bool.or_eq_true, Bool.and_eq_true, decide_eq_true_eq] at h
    omega

/-- Every character of `cleanText T` is the lowering of some character:
stripping only removes characters from the lowered list. -/
theorem mem_cleanText {T : String} {c : Char} (h : c ∈ cleanText T) :
    ∃ c₀, c = pyToLower c₀ := by
  unfold cleanText pyStrip at h
  rw [List.mem_reverse] at h
  have h1 := (List.dropWhile_sublist pyIsSpace).mem h
  rw [List.mem_reverse] at h1
  have h2 := (List.dropWhile_sublist pyIsSpace).mem h1
  obtain ⟨c₀, _, hl⟩ := List.mem_map.mp h2
  exact ⟨c₀, hl.symm⟩

/-- Every character of the sanitized name is a lowercase letter, a digit
or an underscore. -/
theorem mem_sanitizedName_ranges {T : String} {c : Char} (h : c ∈ sanitizedName T) :
    (97 ≤ c.toNat ∧ c.toNat ≤ 122) ∨ (48 ≤ c.toNat ∧ c.toNat ≤ 57) ∨ c = '_' := by
  unfold sanitizedName at h
  obtain ⟨c₁, hc₁, rfl⟩ := List.mem_map.mp (List.mem_of_mem_take h)
  rw [flatten_keepChar] at hc₁
  obtain ⟨hmem, hpred⟩ := List.mem_filter.mp hc₁
  by_cases hsp : c₁ = ' '
  · simp only [hsp]
    right; right; rfl
  · have hif : (if c₁ == ' ' then '_' else c₁) = c₁ := by simp [hsp]
    rw [hif]
    simp only [hsp, Bool.or_eq_true, beq_iff_eq, or_false] at hpred
    obtain ⟨c₀, hce⟩ := mem_cleanText hmem
    subst hce
    rcases pyToLower_alnum_ranges c₀ hpred with h1 | h2
    · left; exact h1
    · right; left; exact h2

/-- Every hex digit character of the digest rendering is a decimal digit
or a lowercase `a`-`f`. -/
theorem hexChar_ranges (n : Nat) :
    (48 ≤ (hexChar n).toNat ∧ (hexChar n).toNat ≤ 57) ∨
    (97 ≤ (hexChar n).toNat ∧ (hexChar n).toNat ≤ 102) := by
  have key : ∀ m, m < 16 →
      (48 ≤ (hexDigits.getD m '0').toNat ∧ (hexDigits.getD m '0').toNat ≤ 57) ∨
      (97 ≤ (hexDigits.getD m '0').toNat ∧ (hexDigits.getD m '0').toNat ≤ 102) := by
    decide
  unfold hexChar
  exact key (n % 16) (Nat.mod_lt _ (by norm_num))

/-- Every character of the rendered digest is some `hexChar`. -/
theorem mem_hexFold {c : Char} :
    ∀ l : List Nat, c ∈ l.foldr (fun b acc => byteHex b ++ acc) [] → ∃ n, c = hexChar n := by
  intro l
  induction l with
  | nil => intro h; cases h
  | cons b bs ih =>
    intro h
    rcases List.mem_append.mp h with h1 | h2
    · simp only [byteHex, List.mem_cons, List.not_mem_nil, or_false] at h1
      rcases h1 with rfl | rfl
      · exact ⟨b / 16, rfl⟩
      · exact ⟨b, rfl⟩
    · exact ih h2

/-- The digest rendering has two characters per byte. -/
theorem hexFold_length : ∀ l : List Nat,
    (l.foldr (fun b acc => byteHex b ++ acc) []).length = 2 * l.length := by
  intro l
  induction l with
  | nil => rfl
  | cons b bs ih =>
    rw [List.foldr_cons, List.length_append, ih, List.length_cons]
    have hb : (byteHex b).length = 2 := rfl
    omega

/-- The MD5 digest always has exactly 16 bytes. -/
theorem md5Bytes_length (msg : List Nat) : (md5Bytes msg).length = 16 := by
  unfold md5Bytes word2bytes
  simp [List.length_append]

/-- The MD5 hexdigest always has exactly 32 characters. -/
theorem md5HexDigest_length (msg : List Nat) : (md5HexDigest msg).toList.length = 32 := by
  show ((md5Bytes msg).foldr (fun b acc => byteHex b ++ acc) []).length = 32
  rw [hexFold_length, md5Bytes_length]

/-- Every character of the MD5 hexdigest is some `hexChar`. -/
theorem mem_md5HexDigest {msg : List Nat} {c : Char}
    (h : c ∈ (md5HexDigest msg).toList) : ∃ n, c = hexChar n :=
  mem_hexFold (md5Bytes msg) h

/-- A character confined to the lowercase, digit or underscore ranges is
not a path separator. -/
theorem safe_ranges_no_sep {c : Char}
    (h : (97 ≤ c.toNat ∧ c.toNat ≤ 122) ∨ (48 ≤ c.toNat ∧ c.toNat ≤ 57) ∨ c = '_') :
    c ≠ '/' ∧ c ≠ '\\' := by
  constructor <;> rintro rfl <;> revert h <;> decide

/-- When every dimension before the last two is 1, the squeeze loop
terminates (with any fuel at least `length - 2`) and drops exactly those
leading dimensions, leaving the buffer untouched. -/
theorem squeezeLoop_ones :
    ∀ (fuel : Nat) (t : Tensor), t.shape.length ≤ fuel + 2 →
      (∀ i, i + 2 < t.shape.length → t.shape.getD i 0 = 1) →
      squeezeLoop fuel t = some ⟨t.shape.drop (t.shape.length - 2), t.data⟩ := by
  intro fuel
  induction fuel with
  | zero =>
    intro t hlen _
    unfold squeezeLoop
    rw [if_pos (by omega)]
    have h0 : t.shape.length - 2 = 0 := by omega
    rw [h0, List.drop_zero]
  | succ fuel ih =>
    intro t hlen hones
    by_cases hle : t.shape.length ≤ 2
    · unfold squeezeLoop
      rw [if_pos hle]
      have h0 : t.shape.length - 2 = 0 := by omega
      rw [h0, List.drop_zero]
    · have h0 : t.shape.getD 0 0 = 1 := hones 0 (by omega)
      obtain ⟨s0, rest, hsh⟩ : ∃ s0 rest, t.shape = s0 :: rest := by
        cases hsh : t.shape with
        | nil => rw [hsh] at hle; simp at hle
        | cons a l => exact ⟨a, l, rfl⟩
      have hs0 : s0 = 1 := by rw [hsh] at h0; simpa using h0
      subst hs0
      have hlc : t.shape.length = rest.length + 1 := by rw [hsh]; rfl
      unfold squeezeLoop
      rw [if_neg hle]
      show squeezeLoop fuel (squeeze0 t) = some ⟨t.shape.drop (t.shape.length - 2), t.data⟩
      have hsq : squeeze0 t = ⟨rest, t.data⟩ := by unfold squeeze0; rw [hsh]
      have hdrop : t.shape.drop (t.shape.length - 2) = rest.drop (rest.length - 2) := by
        rw [hsh, List.length_cons]
        have h2 : rest.length + 1 - 2 = (rest.length - 2) + 1 := by omega
        rw [h2, List.drop_succ_cons]
      rw [hsq, hdrop]
      refine ih ⟨rest, t.data⟩ ?_ (fun i hi => ?_)
      · show rest.length ≤ fuel + 2
        omega
      · have hi' : i + 2 < rest.length := hi
        have hh := hones (i + 1) (by omega)
        rw [hsh] at hh
        show rest.getD i 0 = 1
        rw [List.getD_cons_succ] at hh
        exact hh

/-- When some dimension before the last two is not 1, the squeeze loop
never terminates: it returns `none` for every fuel. -/
theorem squeezeLoop_stuck :
    ∀ (fuel : Nat) (t : Tensor) (j : Nat), j + 2 < t.shape.length →
      t.shape.getD j 0 ≠ 1 → squeezeLoop fuel t = none := by
  intro fuel
  induction fuel with
  | zero =>
    intro t j hj _
    unfold squeezeLoop
    rw [if_neg (by omega)]
  | succ fuel ih =>
    intro t j hj hne
    unfold squeezeLoop
    rw [if_neg (by omega)]
    show squeezeLoop fuel (squeeze0 t) = none
    cases hsh : t.shape with
    | nil => rw [hsh] at hj; simp at hj
    | cons s0 rest =>
      by_cases hs0 : s0 = 1
      · subst hs0
        have hsq : squeeze0 t = ⟨rest, t.data⟩ := by unfold squeeze0; rw [hsh]
        rw [hsq]
        have hlc : t.shape.length = rest.length + 1 := by rw [hsh]; rfl
        rcases j with _ | j'
        · exfalso
          apply hne
          rw [hsh]
          rfl
        · refine ih ⟨rest, t.data⟩ j' (by simp only []; omega) ?_
          have hg : t.shape.getD (j' + 1) 0 = rest.getD j' 0 := by
            rw [hsh, List.getD_cons_succ]
          rw [hg] at hne
          exact hne
      · have hsq : squeeze0 t = t := by
          unfold squeeze0
          rw [hsh]
          rcases s0 with _ | _ | s0
          · rfl
          · exact absurd rfl hs0
          · rfl
        rw [hsq]
        exact ih t j hj hne

/-! ## Claim theorems -/

/-- C1: for every text string `T`, `get_audio_cache_path T` equals the
reference resolver transcribed from the specification (lowercase and
strip, keep alphanumerics and spaces, spaces to underscores, truncate to
50, hash fallback below 2 characters, `.wav` under the cache directory),
and repeated calls with the same `T` return the same path. -/
theorem get_audio_cache_path_matches_spec :
    (∀ T : String, get_audio_cache_path T = specCachePath T) ∧
    (∀ T₁ T₂ : String, T₁ = T₂ → get_audio_cache_path T₁ = get_audio_cache_path T₂) := by
  constructor
  · intro T
    unfold get_audio_cache_path specCachePath safeName sanitizedName cleanText
    rw [flatten_keepChar]
  · intro T₁ T₂ h
    rw [h]

/-- Witness for C1: the resolvers agree on the concrete text
`"Hello, World!"`, and the call repeated on it is equal to itself. -/
theorem get_audio_cache_path_matches_spec_w :
    get_audio_cache_path "Hello, World!" = specCachePath "Hello, World!" ∧
    get_audio_cache_path "Hello, World!" = get_audio_cache_path "Hello, World!" :=
  ⟨get_audio_cache_path_matches_spec.1 "Hello, World!",
   get_audio_cache_path_matches_spec.2 "Hello, World!" "Hello, World!" rfl⟩

/-- C2: when the resolved path for a nonempty text is already present in
the cache, `/speak` returns exactly that file with mimetype `audio/wav`,
leaves the server state (cache directory included) unchanged, and makes
no `load_model` or `generate` call and no cache write — only the one
existence check. -/
theorem speak_cache_hit (env : Env) (st : ServerState) (text : String)
    (f : FileData) (ht : text ≠ "")
    (hf : st.fs (get_audio_cache_path text) = some f) :
    speak env st text =
      some ⟨.fileResp f "audio/wav", st,
        { emptyTrace with cacheChecks := [get_audio_cache_path text] }⟩ := by
  simp only [speak, if_neg ht, hf]

/-- Witness for C2: the pre-populated state `st0` serves `f0` back for
`"hello"` untouched. -/
theorem speak_cache_hit_w :
    "hello" ≠ "" ∧
    speak env0 st0 "hello" =
      some ⟨.fileResp f0 "audio/wav", st0,
        { emptyTrace with cacheChecks := [get_audio_cache_path "hello"] }⟩ :=
  ⟨by decide, speak_cache_hit env0 st0 "hello" f0 (by decide) (by decide)⟩

/-- When `generate` succeeds and the shape loop terminates, the
cache-miss tail writes the normalized waveform at 24000 Hz to the cache
path, appends the one `generate` call and the one write to the trace,
and serves the written file. -/
theorem speakGenerate_success (env : Env) (st : ServerState) (text cp : String)
    (tr : Trace) (wav wav2 : Tensor)
    (hgen : env.generate text = .ok wav) (hnorm : normalizeWav wav = some wav2) :
    speakGenerate env st text cp tr =
      some ⟨.fileResp (FileData.wavData wav2 24000) "audio/wav",
        { st with fs := fun p =>
            if p = cp then some (FileData.wavData wav2 24000) else st.fs p },
        { tr with genCalls := tr.genCalls ++ [text],
                  cacheWrites := tr.cacheWrites ++ [cp] }⟩ := by
  simp only [speakGenerate, hgen, hnorm]

/-- C3: on a nonempty text whose resolved path is absent from the cache,
with the model available (already loaded or loading succeeds), a
successful `generate` whose waveform the shape loop can normalize leads
`/speak` to call `generate` exactly once, run `load_model` once, write
the normalized waveform as a 24000 Hz WAV at the resolved path (touching
no other cache entry), and return exactly that file with mimetype
`audio/wav`, leaving the model loaded. -/
theorem speak_cache_miss (env : Env) (st : ServerState) (text : String)
    (wav wav2 : Tensor) (ht : text ≠ "")
    (hmiss : st.fs (get_audio_cache_path text) = none)
    (hload : st.modelLoaded = true ∨ env.loadOutcome = Except.ok ())
    (hgen : env.generate text = .ok wav)
    (hnorm : normalizeWav wav = some wav2) :
    ∃ r, speak env st text = some r ∧
      r.resp = .fileResp (FileData.wavData wav2 24000) "audio/wav" ∧
      r.trace.genCalls = [text] ∧
      r.trace.loadCalls = 1 ∧
      r.trace.cacheWrites = [get_audio_cache_path text] ∧
      r.state.fs (get_audio_cache_path text) = some (FileData.wavData wav2 24000) ∧
      (∀ p, p ≠ get_audio_cache_path text → r.state.fs p = st.fs p) ∧
      r.state.modelLoaded = true := by
  by_cases hml : st.modelLoaded = true
  · have h1 : speak env st text =
        speakGenerate env st text (get_audio_cache_path text)
          { emptyTrace with loadCalls := 1, cacheChecks := [get_audio_cache_path text] } := by
      simp only [speak, if_neg ht, hmiss, hml, if_true]
    rw [h1, speakGenerate_success env st text (get_audio_cache_path text) _ wav wav2 hgen hnorm]
    refine ⟨_, rfl, rfl, rfl, rfl, rfl, ?_, ?_, ?_⟩
    · simp
    · intro p hp
      simp [hp]
    · exact hml
  · rcases hload with hl | hl
    · exact absurd hl hml
    · have hmlf : st.modelLoaded = false := by
        revert hml
        cases st.modelLoaded <;> simp
      have h1 : speak env st text =
          speakGenerate env { st with modelLoaded := true, device := some env.getDevice }
            text (get_audio_cache_path text)
            { emptyTrace with loadCalls := 1, cacheChecks := [get_audio_cache_path text] } := by
        simp only [speak, if_neg ht, hmiss, hmlf, Bool.false_eq_true, if_false, hl]
      rw [h1, speakGenerate_success env _ text (get_audio_cache_path text) _ wav wav2 hgen hnorm]
      refine ⟨_, rfl, rfl, rfl, rfl, rfl, ?_, ?_, rfl⟩
      · simp
      · intro p hp
        simp [hp]

/-- Witness for C3: on the empty cache, the text `"world"` with the
fixed 2-dimensional waveform of `env0` synthesizes, caches and serves as
the theorem states. -/
theorem speak_cache_miss_w :
    ("world" : String) ≠ "" ∧
    stEmpty.fs (get_audio_cache_path "world") = none ∧
    (stEmpty.modelLoaded = true ∨ env0.loadOutcome = Except.ok ()) ∧
    env0.generate "world" = .ok ⟨[1, 24000], 0⟩ ∧
    normalizeWav ⟨[1, 24000], 0⟩ = some ⟨[1, 24000], 0⟩ ∧
    ∃ r, speak env0 stEmpty "world" = some r ∧
      r.resp = .fileResp (FileData.wavData ⟨[1, 24000], 0⟩ 24000) "audio/wav" ∧
      r.trace.genCalls = ["world"] ∧
      r.trace.loadCalls = 1 ∧
      r.trace.cacheWrites = [get_audio_cache_path "world"] ∧
      r.state.fs (get_audio_cache_path "world") =
        some (FileData.wavData ⟨[1, 24000], 0⟩ 24000) ∧
      (∀ p, p ≠ get_audio_cache_path "world" → r.state.fs p = stEmpty.fs p) ∧
      r.state.modelLoaded = true :=
  ⟨by decide, rfl, Or.inr rfl, rfl, by decide,
   speak_cache_miss env0 stEmpty "world" ⟨[1, 24000], 0⟩ ⟨[1, 24000], 0⟩
     (by decide) rfl (Or.inr rfl) rfl (by decide)⟩

/-- C4: a `/speak` request whose body lacks the `text` field, or carries
an empty one, gets status 400 with body `{"error": "No text provided"}`,
the state is unchanged and the trace is empty: no cache existence check,
no cache write, no `load_model` and no `generate` call. -/
theorem speak_empty_text (env : Env) (st : ServerState) :
    speakRequest env st none =
      some ⟨.jsonResp 400 [("error", .str "No text provided")], st, emptyTrace⟩ ∧
    speakRequest env st (some "") =
      some ⟨.jsonResp 400 [("error", .str "No text provided")], st, emptyTrace⟩ :=
  ⟨rfl, rfl⟩

/-- C5: the cache key resolver is not injective: `"Hello"` and
`"hello"` are distinct texts with the same resolved path, as are two
distinct all-`a` texts of lengths 55 and 60 sharing their truncated
50-character prefix. -/
theorem cache_key_collision :
    ("Hello" ≠ "hello" ∧
      get_audio_cache_path "Hello" = get_audio_cache_path "hello") ∧
    (String.mk (List.replicate 55 'a') ≠ String.mk (List.replicate 60 'a') ∧
      get_audio_cache_path (String.mk (List.replicate 55 'a')) =
        get_audio_cache_path (String.mk (List.replicate 60 'a'))) := by
  exact ⟨⟨by decide, by decide⟩, ⟨by decide, by decide⟩⟩

/-- C6: when the sanitized form of a text has fewer than two characters,
the resolved file stem is the first 12 characters of the MD5 hexdigest of
the normalized (lowered and stripped) text — 12 characters long, all
lowercase hexadecimal — the resolved path is that stem plus `.wav` inside
the cache directory, and any text with the same normalized form resolves
to the same name. -/
theorem hash_fallback_name (T : String) (h : (sanitizedName T).length < 2) :
    safeName T = (md5HexDigest (utf8Encode (cleanText T))).toList.take 12 ∧
    (safeName T).length = 12 ∧
    (∀ c ∈ safeName T,
      (48 ≤ c.toNat ∧ c.toNat ≤ 57) ∨ (97 ≤ c.toNat ∧ c.toNat ≤ 102)) ∧
    get_audio_cache_path T =
      AUDIO_CACHE_DIR ++ "/" ++
        String.mk ((md5HexDigest (utf8Encode (cleanText T))).toList.take 12) ++ ".wav" ∧
    (∀ T' : String, cleanText T' = cleanText T → safeName T' = safeName T) := by
  have he : safeName T = (md5HexDigest (utf8Encode (cleanText T))).toList.take 12 := by
    unfold safeName
    rw [if_pos h]
  refine ⟨he, ?_, ?_, ?_, ?_⟩
  · rw [he, List.length_take, md5HexDigest_length]
    omega
  · intro c hc
    rw [he] at hc
    obtain ⟨n, rfl⟩ := mem_md5HexDigest (List.mem_of_mem_take hc)
    exact hexChar_ranges n
  · unfold get_audio_cache_path
    rw [he]
  · intro T' hT'
    unfold safeName sanitizedName
    rw [hT']

/-- Witness for C6: the all-punctuation text `"!!!"` sanitizes to fewer
than two characters, its resolved stem has 12 characters, its first
character is a hex digit, and the differently spaced `"  !!!  "`
normalizes identically and resolves to the same name. -/
theorem hash_fallback_name_w :
    (sanitizedName "!!!").length < 2 ∧
    (safeName "!!!").length = 12 ∧
    ('6' ∈ safeName "!!!" →
      (48 ≤ '6'.toNat ∧ '6'.toNat ≤ 57) ∨ (97 ≤ '6'.toNat ∧ '6'.toNat ≤ 102)) ∧
    safeName "  !!!  " = safeName "!!!" :=
  ⟨by decide, (hash_fallback_name "!!!" (by decide)).2.1,
   (hash_fallback_name "!!!" (by decide)).2.2.1 '6',
   (hash_fallback_name "!!!" (by decide)).2.2.2.2 "  !!!  " (by decide)⟩

/-- C7: the resolver is total and pure — for every input it produces the
path of a `.wav` file directly inside the audio cache directory, whose
stem has at least two characters, each of them a lowercase letter, a
digit or an underscore (hex digits included in those ranges), hence never
a path separator, so the path cannot escape the cache directory. -/
theorem cache_path_always_safe (T : String) :
    get_audio_cache_path T =
      AUDIO_CACHE_DIR ++ "/" ++ String.mk (safeName T) ++ ".wav" ∧
    2 ≤ (safeName T).length ∧
    ∀ c ∈ safeName T,
      ((97 ≤ c.toNat ∧ c.toNat ≤ 122) ∨ (48 ≤ c.toNat ∧ c.toNat ≤ 57) ∨ c = '_') ∧
      c ≠ '/' ∧ c ≠ '\\' := by
  refine ⟨rfl, ?_, ?_⟩
  · unfold safeName
    by_cases h : (sanitizedName T).length < 2
    · rw [if_pos h, List.length_take, md5HexDigest_length]
      omega
    · rw [if_neg h]
      omega
  · intro c hc
    unfold safeName at hc
    by_cases h : (sanitizedName T).length < 2
    · rw [if_pos h] at hc
      obtain ⟨n, rfl⟩ := mem_md5HexDigest (List.mem_of_mem_take hc)
      have hr : (97 ≤ (hexChar n).toNat ∧ (hexChar n).toNat ≤ 122) ∨
          (48 ≤ (hexChar n).toNat ∧ (hexChar n).toNat ≤ 57) ∨ hexChar n = '_' := by
        rcases hexChar_ranges n with h1 | h2
        · right; left; exact h1
        · left; omega
      exact ⟨hr, safe_ranges_no_sep hr⟩
    · rw [if_neg h] at hc
      have hr := mem_sanitizedName_ranges hc
      exact ⟨hr, safe_ranges_no_sep hr⟩

/-- Witness for C7: at `"hello"`, the path decomposes as stated, the stem
has at least two characters, and its concrete member `'h'` lies in the
allowed ranges and is no separator. -/
theorem cache_path_always_safe_w :
    get_audio_cache_path "hello" =
      AUDIO_CACHE_DIR ++ "/" ++ String.mk (safeName "hello") ++ ".wav" ∧
    2 ≤ (safeName "hello").length ∧
    (((97 ≤ 'h'.toNat ∧ 'h'.toNat ≤ 122) ∨ (48 ≤ 'h'.toNat ∧ 'h'.toNat ≤ 57) ∨ 'h' = '_') ∧
      'h' ≠ '/' ∧ 'h' ≠ '\\') :=
  ⟨(cache_path_always_safe "hello").1,
   (cache_path_always_safe "hello").2.1,
   (cache_path_always_safe "hello").2.2 'h' (by decide)⟩

/-- C10: for a waveform tensor (at least one dimension) the shape
normalization of `/speak` terminates with a 2-dimensional tensor (same
buffer) exactly when every leading dimension beyond the second has size
1; when some such dimension differs from 1, the squeeze loop returns
`none` for every fuel — `squeeze(0)` leaves the tensor unchanged and the
`while` loop runs forever. -/
theorem shape_loop_terminates_iff (t : Tensor) (hlen : 1 ≤ t.shape.length) :
    ((∀ i, i < t.shape.length - 2 → t.shape.getD i 0 = 1) →
      ∃ t', normalizeWav t = some t' ∧ t'.shape.length = 2 ∧ t'.data = t.data) ∧
    ((¬ ∀ i, i < t.shape.length - 2 → t.shape.getD i 0 = 1) →
      (∀ fuel, squeezeLoop fuel t = none) ∧ normalizeWav t = none) := by
  constructor
  · intro hones
    have hsl := squeezeLoop_ones t.shape.length t (by omega)
      (fun i hi => hones i (by omega))
    unfold normalizeWav
    rw [hsl]
    have hdlen : ((⟨t.shape.drop (t.shape.length - 2), t.data⟩ : Tensor).shape.length) =
        t.shape.length - (t.shape.length - 2) := List.length_drop _ _
    by_cases h1 : t.shape.length = 1
    · have hd1 : ((⟨t.shape.drop (t.shape.length - 2), t.data⟩ : Tensor).shape.length) = 1 := by
        omega
      refine ⟨_, rfl, ?_, ?_⟩
      · simp [unsqueeze0, hd1]
      · simp [unsqueeze0, hd1]
    · have hd2 : ((⟨t.shape.drop (t.shape.length - 2), t.data⟩ : Tensor).shape.length) = 2 := by
        omega
      refine ⟨_, rfl, ?_, ?_⟩
      · simp [unsqueeze0, hd2]
      · simp [unsqueeze0, hd2]
  · intro hnones
    push_neg at hnones
    obtain ⟨j, hj, hne⟩ := hnones
    have hall : ∀ fuel, squeezeLoop fuel t = none :=
      fun fuel => squeezeLoop_stuck fuel t j (by omega) hne
    refine ⟨hall, ?_⟩
    unfold normalizeWav
    rw [hall t.shape.length]

/-- Witness for C10: the tensor of shape `[1, 1, 100]` has every leading
dimension equal to 1, and its normalization indeed yields a
2-dimensional tensor over the same buffer. -/
theorem shape_loop_terminates_iff_w :
    1 ≤ (Tensor.mk [1, 1, 100] 5).shape.length ∧
    ∃ t', normalizeWav ⟨[1, 1, 100], 5⟩ = some t' ∧
      t'.shape.length = 2 ∧ t'.data = (Tensor.mk [1, 1, 100] 5).data :=
  ⟨by decide, (shape_loop_terminates_iff ⟨[1, 1, 100], 5⟩ (by decide)).1 (by decide)⟩

/-- The cache-miss tail never changes the `model` global: its result
state keeps the `modelLoaded` bit of the state it was entered with. -/
theorem speakGenerate_modelLoaded (env : Env) (st : ServerState) (text cp : String)
    (tr : Trace) (r : HandlerResult) (h : speakGenerate env st text cp tr = some r) :
    r.state.modelLoaded = st.modelLoaded := by
  simp only [speakGenerate] at h
  cases hg : env.generate text with
  | error e =>
    rw [hg] at h
    simp only [] at h
    injection h with h
    subst h
    rfl
  | ok wav =>
    rw [hg] at h
    simp only [] at h
    cases hn : normalizeWav wav with
    | none =>
      rw [hn] at h
      cases h
    | some wav2 =>
      rw [hn] at h
      simp only [] at h
      injection h with h
      subst h
      rfl

/-- How one `/speak` request can move the `model` singleton: it stays
loaded once loaded, it only becomes loaded through a successful load
attempt, and whenever `generate` was reached, the model is loaded in the
resulting state. -/
theorem speak_modelLoaded_facts (env : Env) (st : ServerState) (text : String)
    (r : HandlerResult) (h : speak env st text = some r) :
    (st.modelLoaded = true → r.state.modelLoaded = true) ∧
    (r.state.modelLoaded = true → st.modelLoaded = true ∨ env.loadOutcome = Except.ok ()) ∧
    (r.trace.genCalls ≠ [] → r.state.modelLoaded = true) := by
  simp only [speak] at h
  by_cases ht : text = ""
  · rw [if_pos ht] at h
    injection h with h
    subst h
    exact ⟨fun hm => hm, fun hm => Or.inl hm, fun hg => absurd rfl hg⟩
  · rw [if_neg ht] at h
    cases hfs : st.fs (get_audio_cache_path text) with
    | some f =>
      rw [hfs] at h
      simp only [] at h
      injection h with h
      subst h
      exact ⟨fun hm => hm, fun hm => Or.inl hm, fun hg => absurd rfl hg⟩
    | none =>
      rw [hfs] at h
      simp only [] at h
      by_cases hml : st.modelLoaded = true
      · rw [if_pos hml] at h
        have := speakGenerate_modelLoaded env st text _ _ r h
        rw [this, hml]
        exact ⟨fun _ => rfl, fun _ => Or.inl rfl, fun _ => rfl⟩
      · rw [if_neg hml] at h
        cases hlo : env.loadOutcome with
        | error e =>
          rw [hlo] at h
          simp only [] at h
          injection h with h
          subst h
          refine ⟨fun hm => absurd hm hml, fun hm => absurd hm hml, fun hg => absurd rfl hg⟩
        | ok u =>
          rw [hlo] at h
          simp only [] at h
          have := speakGenerate_modelLoaded env _ text _ _ r h
          rw [this]
          exact ⟨fun _ => rfl, fun _ => Or.inr (by cases u; rfl), fun _ => rfl⟩

/-- C8: `/health` always answers 200 with `model_loaded` reporting the
singleton's state exactly and without touching the state; the process
starts with no model loaded; a `/speak` request keeps a loaded model
loaded, loads it only through a successful load attempt, and has it
loaded whenever synthesis ran; `/preload` keeps a loaded model loaded,
leaves it loaded when loading succeeds, reports 200 only with the model
loaded afterwards, and likewise can only end with the model loaded if it
already was or the load attempt succeeded — so the bit stays false
across failed loads too. -/
theorem model_singleton_lifecycle :
    (∀ fs0, (initialState fs0).modelLoaded = false) ∧
    (∀ (env : Env) (st : ServerState),
      respStatus (health env st).resp = 200 ∧
      jsonField (health env st).resp "model_loaded" = some (.bool st.modelLoaded) ∧
      (health env st).state = st) ∧
    (∀ (env : Env) (st : ServerState) (text : String) (r : HandlerResult),
      speak env st text = some r →
        (st.modelLoaded = true → r.state.modelLoaded = true) ∧
        (r.state.modelLoaded = true → st.modelLoaded = true ∨ env.loadOutcome = Except.ok ()) ∧
        (r.trace.genCalls ≠ [] → r.state.modelLoaded = true)) ∧
    (∀ (env : Env) (st : ServerState),
      (st.modelLoaded = true → (preload env st).state.modelLoaded = true) ∧
      (env.loadOutcome = Except.ok () → (preload env st).state.modelLoaded = true) ∧
      (respStatus (preload env st).resp = 200 → (preload env st).state.modelLoaded = true) ∧
      ((preload env st).state.modelLoaded = true →
        st.modelLoaded = true ∨ env.loadOutcome = Except.ok ())) := by
  refine ⟨fun fs0 => rfl, fun env st => ⟨rfl, rfl, rfl⟩, speak_modelLoaded_facts, fun env st => ?_⟩
  by_cases hml : st.modelLoaded = true
  · have hres : (preload env st).state = st := by
      simp only [preload, hml, if_true]
    rw [hres]
    exact ⟨fun hm => hm, fun _ => hml, fun _ => hml, fun hm => Or.inl hm⟩
  · have hmlf : st.modelLoaded = false := by
      revert hml
      cases st.modelLoaded <;> simp
    cases hlo : env.loadOutcome with
    | error e =>
      have hres : preload env st =
          ⟨.jsonResp 500 [("error", .str e)], { st with device := some env.getDevice },
            { emptyTrace with loadCalls := 1 }⟩ := by
        simp only [preload, hmlf, Bool.false_eq_true, if_false, hlo]
      rw [hres]
      refine ⟨fun hm => hm, fun hm => ?_, fun hs => ?_, fun hm => ?_⟩
      · exact Except.noConfusion hm
      · have hs' : (500 : Nat) = 200 := hs
        exact absurd hs' (by decide)
      · exact absurd (hm : st.modelLoaded = true) hml
    | ok u =>
      have hres2 : (preload env st).state.modelLoaded = true := by
        simp only [preload, hmlf, Bool.false_eq_true, if_false, hlo]
      exact ⟨fun _ => hres2, fun _ => hres2, fun _ => hres2,
        fun _ => Or.inr (by cases u; rfl)⟩

/-- Witness for C8: concrete instances — the initial state on the empty
cache reports no model; `/health` on `st0` answers 200 with
`model_loaded: false`; a `/speak` 400 on the already loaded `stLoaded`
keeps the model loaded; `/preload` on the empty-cache state with the
always-succeeding `env0` leaves the model loaded, and its ending loaded
entails that the load attempt succeeded. -/
theorem model_singleton_lifecycle_w :
    (initialState (fun _ => none)).modelLoaded = false ∧
    respStatus (health env0 st0).resp = 200 ∧
    jsonField (health env0 st0).resp "model_loaded" = some (.bool st0.modelLoaded) ∧
    ((stLoaded.modelLoaded = true →
      (HandlerResult.mk (.jsonResp 400 [("error", .str "No text provided")]) stLoaded
        emptyTrace).state.modelLoaded = true)) ∧
    (preload env0 stEmpty).state.modelLoaded = true ∧
    (stEmpty.modelLoaded = true ∨ env0.loadOutcome = Except.ok ()) :=
  ⟨model_singleton_lifecycle.1 (fun _ => none),
   (model_singleton_lifecycle.2.1 env0 st0).1,
   (model_singleton_lifecycle.2.1 env0 st0).2.1,
   (model_singleton_lifecycle.2.2.1 env0 stLoaded "" _ rfl).1,
   (model_singleton_lifecycle.2.2.2 env0 stEmpty).2.1 rfl,
   (model_singleton_lifecycle.2.2.2 env0 stEmpty).2.2.2 rfl⟩

/-- C9 counterexample: when the request environment has no
`werkzeug.server.shutdown` hook (the newer-Flask branch the code
comments on), the handler calls `os._exit(0)` and the client receives no
200 response at all. -/
theorem shutdown_no_response_counterexample :
    sendsResponse (shutdown false) ≠
      some (.jsonResp 200 [("status", .str "shutting down")]) := by
  decide

/-- C9 amended: a `/shutdown` request terminates the process; only when
the werkzeug shutdown hook is present does the handler also return
`200 {"status": "shutting down"}`, and with the hook absent the process
exits immediately with no response sent. -/
theorem shutdown_behavior (hook : Bool) :
    sendsResponse (shutdown hook) =
      (if hook then some (.jsonResp 200 [("status", .str "shutting down")]) else none) ∧
    shutdown true = .respondThenStop (.jsonResp 200 [("status", .str "shutting down")]) ∧
    shutdown false = .immediateExit := by
  cases hook <;> exact ⟨rfl, rfl, rfl⟩

end TTSServer
